import Mathlib

/-!
Verification of the clixon CLI core against its specification.

The definitions below are shallow embeddings of the C sources:
  - `src/lib/src/clixon_options.c`  (option registry, config-file loader, sanity gate)
  - `src/apps/cli/cli_plugin.c`     (symbol resolver, clispec loader, parse/eval step,
                                     prompt renderer)
C strings are modelled as Lean `String`/`List Char`, the cligen hash table as an
association list, machine integers as `Int`/`Nat` with explicit `% 2 ^ 32` where
overflow matters, and fallible C functions as `Option`/`Except`.
-/

set_option maxRecDepth 4096

namespace Clixon

/-! ## Option registry (clixon_options.c)

The cligen hash table `clicon_hash_t` is modelled as an association list with
at most one live binding per key: `hash_add` overwrites the first binding in
place (as the C hash replaces the stored value) and appends fresh keys at the
end; `hash_del` removes a key; `hash_lookup` finds the binding.
-/

abbrev OptMap := List (String × String)

def hash_lookup : OptMap → String → Option String
  | [], _ => none
  | (k0, v0) :: rest, k => if k0 = k then some v0 else hash_lookup rest k

def hash_add : OptMap → String → String → OptMap
  | [], k, v => [(k, v)]
  | (k0, v0) :: rest, k, v =>
    if k0 = k then (k0, v) :: rest else (k0, v0) :: hash_add rest k v

def hash_del : OptMap → String → OptMap
  | [], _ => []
  | (k0, v0) :: rest, k =>
    if k0 = k then hash_del rest k else (k0, v0) :: hash_del rest k

/-- Embedding of `clicon_option_exists`: does the option have a value. -/
def clicon_option_exists (m : OptMap) (name : String) : Bool :=
  (hash_lookup m name).isSome

/-- Embedding of `clicon_option_str`: `none` when the key is absent. -/
def clicon_option_str (m : OptMap) (name : String) : Option String :=
  hash_lookup m name

/-- Embedding of `clicon_option_str_set`: stores `strlen(val)+1` bytes, i.e. the
value byte-exactly. -/
def clicon_option_str_set (m : OptMap) (name val : String) : OptMap :=
  hash_add m name val

/-- Embedding of `clicon_option_del`. -/
def clicon_option_del (m : OptMap) (name : String) : OptMap :=
  hash_del m name

/-! ### Sanity gate (`clicon_option_sanity`)

A faithful transcription of the nine sequential `hash_lookup` checks,
including each branch's literal diagnostic string.  Note the third branch:
the source checks `CLICON_BACKEND_DIR` but its message names
`CLICON_BACKEND_PIDFILE`.
-/

def clicon_option_sanity (copt : OptMap) : Except String Unit :=
  if (hash_lookup copt "CLICON_CLI_DIR").isNone then
    Except.error "CLICON_CLI_DIR not defined in config file"
  else if (hash_lookup copt "CLICON_CLISPEC_DIR").isNone then
    Except.error "CLICON_CLISPEC_DIR not defined in config file"
  else if (hash_lookup copt "CLICON_BACKEND_DIR").isNone then
    Except.error "CLICON_BACKEND_PIDFILE not defined in config file"
  else if (hash_lookup copt "CLICON_NETCONF_DIR").isNone then
    Except.error "CLICON_NETCONF_DIR not defined in config file"
  else if (hash_lookup copt "CLICON_RESTCONF_DIR").isNone then
    Except.error "CLICON_RESTCONF_DIR not defined in config file"
  else if (hash_lookup copt "CLICON_YANG_DIR").isNone then
    Except.error "CLICON_YANG_DIR not defined in config file"
  else if (hash_lookup copt "CLICON_ARCHIVE_DIR").isNone then
    Except.error "CLICON_ARCHIVE_DIR not defined in config file"
  else if (hash_lookup copt "CLICON_SOCK").isNone then
    Except.error "CLICON_SOCK not defined in config file"
  else if (hash_lookup copt "CLICON_BACKEND_PIDFILE").isNone then
    Except.error "CLICON_BACKEND_PIDFILE not defined in config file"
  else Except.ok ()

/-- The required-key set checked by the sanity gate, in source order. -/
def requiredOptions : List String :=
  ["CLICON_CLI_DIR", "CLICON_CLISPEC_DIR", "CLICON_BACKEND_DIR",
   "CLICON_NETCONF_DIR", "CLICON_RESTCONF_DIR", "CLICON_YANG_DIR",
   "CLICON_ARCHIVE_DIR", "CLICON_SOCK", "CLICON_BACKEND_PIDFILE"]

/-! ### Integer accessors (`clicon_option_int`, `clicon_option_int_set`)

`clicon_option_int_set` runs `snprintf(s, 63, "%u", val)`: the `int` argument
is reinterpreted as a 32-bit unsigned, i.e. printed as the decimal digits of
`val mod 2^32`.  `clicon_option_int` runs `atoi` on the stored string.  `atoi`
is modelled after its behaviour on the target platform (glibc, LP64):
`strtol` — skip `isspace` bytes, optional sign, decimal digits, saturating at
the 64-bit `long` range — followed by the narrowing conversion from `long` to
32-bit `int`, which gcc defines to wrap modulo `2^32`.
-/

/-- Whitespace per C `isspace` (the set honoured by `sscanf`/`strtol`). -/
def isSpaceC (c : Char) : Bool :=
  c == ' ' || c == '\t' || c == '\n' || c == '\x0b' || c == '\x0c' || c == '\r'

/-- Numeric value of an ASCII digit (C: `c - '0'`). -/
def charVal (c : Char) : Nat := c.toNat - 48

/-- Value of the leading run of decimal digits, most significant first. -/
def parseNatDigits (cs : List Char) : Nat :=
  (cs.takeWhile Char.isDigit).foldl (fun a c => 10 * a + charVal c) 0

/-- Mathematical value read by `strtol(s, NULL, 10)` before saturation. -/
def strtolVal (cs : List Char) : Int :=
  match cs.dropWhile isSpaceC with
  | '-' :: rest => -(parseNatDigits rest : Int)
  | '+' :: rest => (parseNatDigits rest : Int)
  | rest => (parseNatDigits rest : Int)

/-- Saturation of `strtol` at the LP64 `long` range. -/
def clampLong (n : Int) : Int := max (-(2 ^ 63)) (min (2 ^ 63 - 1) n)

/-- Narrowing conversion from `long` to 32-bit `int` (gcc: wrap mod `2^32`). -/
def wrap32 (n : Int) : Int := (n + 2 ^ 31) % 2 ^ 32 - 2 ^ 31

/-- Model of glibc `atoi` on the target platform, see the section comment. -/
def atoi (s : String) : Int := wrap32 (clampLong (strtolVal s.data))

/-- Embedding of `clicon_option_int`: `-1` when the key is absent, otherwise
`atoi` of the stored string. -/
def clicon_option_int (m : OptMap) (name : String) : Int :=
  match clicon_option_str m name with
  | none => -1
  | some s => atoi s

/-- Digit-extraction loop of the decimal printer, with explicit fuel so that
the kernel can evaluate it on concrete values; it agrees with
`Nat.digits 10` below (`uDecimalAux_eq_digits`). -/
def uDecimalAux : Nat → Nat → List Char → List Char
  | 0, _, acc => acc
  | fuel + 1, n, acc =>
    if n = 0 then acc
    else uDecimalAux fuel (n / 10) (Nat.digitChar (n % 10) :: acc)

/-- Decimal rendition of a `Nat`, as `snprintf` `%u` prints it (32 digits of
fuel are ample for a 32-bit value). -/
def uDecimalChars (n : Nat) : List Char :=
  if n = 0 then ['0'] else uDecimalAux 32 n []

/-- Embedding of `clicon_option_int_set`: the stored text is `%u` of `val`,
i.e. the decimal digits of `val mod 2^32` (the `snprintf` into the 64-byte
buffer never fails for a 32-bit value). -/
def clicon_option_int_set (m : OptMap) (name : String) (val : Int) : OptMap :=
  clicon_option_str_set m name (String.mk (uDecimalChars ((val % 2 ^ 32).toNat)))

/-! ### Config-file loader (`clicon_option_readfile`)

The file system is abstracted as a partial map from path to file contents:
`none` models a failing `stat`; `regular` is `S_ISREG`; `openable` models
`fopen` succeeding; `lines` are the `fgets` lines with the trailing newline
already stripped (as the source strips it first).
-/

structure FsFile where
  regular : Bool
  openable : Bool
  lines : List String
deriving Repr

/-- Whitespace-separated tokens, as `sscanf(line, "%s %s", ...)` scans them:
`acc` holds the (reversed) token being built. -/
def tokensAux : List Char → List Char → List (List Char)
  | [], acc => if acc.isEmpty then [] else [acc.reverse]
  | c :: rest, acc =>
    if isSpaceC c then
      if acc.isEmpty then tokensAux rest [] else acc.reverse :: tokensAux rest []
    else tokensAux rest (c :: acc)

def lineTokens (cs : List Char) : List (List Char) := tokensAux cs []

/-- Comment handling of the source: the first `#` is overwritten with
`"\n"` and a terminator, so the line becomes the prefix before `#` plus a
newline; a line without `#` is left alone. -/
def commentStrip (cs : List Char) : List Char :=
  if cs.contains '#' then cs.takeWhile (fun c => c != '#') ++ ['\n'] else cs

/-- One line of `clicon_option_readfile`: comment handling, then `sscanf`
wants at least two tokens, and `hash_add` stores the first two. -/
def processLine (m : OptMap) (line : String) : OptMap :=
  match lineTokens (commentStrip line.data) with
  | k :: v :: _ => hash_add m (String.mk k) (String.mk v)
  | _ => m

/-- Embedding of `clicon_option_readfile`.  The error strings follow the
`clicon_err` reasons of the respective exits (empty path, failing `stat`,
not a regular file, failing `fopen`). -/
def clicon_option_readfile (copt : OptMap) (filename : Option String)
    (fs : String → Option FsFile) : Except String OptMap :=
  match filename with
  | none => Except.error "Not specified"
  | some fn =>
    if fn.length = 0 then Except.error "Not specified"
    else match fs fn with
      | none => Except.error fn
      | some file =>
        if !file.regular then Except.error (fn ++ " is not a regular file")
        else if !file.openable then Except.error ("configure file: " ++ fn)
        else Except.ok (file.lines.foldl processLine copt)

/-! ### Spec-side description of the loader

Written from the specification's words, to be compared with the embedding
above: "Strip comments starting at `#`.  Skip lines that do not contain two
whitespace-separated tokens.  Insert each (key, value) pair; later insertions
for the same key overwrite earlier ones."  The store is described
extensionally as a partial map.
-/

abbrev SpecMap := String → Option String

def specInsert (f : SpecMap) (k v : String) : SpecMap :=
  fun q => if q = k then some v else f q

/-- Spec side: everything from the first `#` to end of line is removed. -/
def specCommentStrip (cs : List Char) : List Char :=
  cs.takeWhile (fun c => c != '#')

def specProcessLine (f : SpecMap) (line : String) : SpecMap :=
  match lineTokens (specCommentStrip line.data) with
  | k :: v :: _ => specInsert f (String.mk k) (String.mk v)
  | _ => f

/-- Spec-side loader: fails on an empty or unnamed path, a path that cannot
be `stat`ed or opened, or a non-regular file; otherwise folds the line rule
over the file. -/
def specReadfile (f0 : SpecMap) (filename : Option String)
    (fs : String → Option FsFile) : Except String SpecMap :=
  match filename with
  | none => Except.error "Not specified"
  | some fn =>
    if fn.length = 0 then Except.error "Not specified"
    else match fs fn with
      | none => Except.error fn
      | some file =>
        if !file.regular then Except.error (fn ++ " is not a regular file")
        else if !file.openable then Except.error ("configure file: " ++ fn)
        else Except.ok (file.lines.foldl specProcessLine f0)

/-! ## Symbol resolver (`clixon_str2fn`, cli_plugin.c)

`dlsym` against a module is modelled as a partial map from symbol name to the
symbol's address (an `Int`; `0` is the C `NULL`, and a symbol may be found
with value `0`): `some a` is a lookup whose subsequent `dlerror()` is clear,
`none` a lookup that sets the `dlerror` channel.  The resolver's result is the
pair (returned pointer, `*error`).
-/

/-- The distinguished auto-generate callback token.  Its literal spelling is
defined in `cli_generate.h`, outside these sources; only its identity is
relevant, so it is kept abstract as a fixed string constant. -/
def GENERATE_CALLBACK : String := "GENERATE_CALLBACK"

/-- Embedding of `clixon_str2fn`.  `global` is the process-global symbol
space (`dlsym(RTLD_DEFAULT, ...)`); `dlmsg` the loader's error message;
`handle` the optional plugin module. -/
def clixon_str2fn (global : String → Option Int) (dlmsg : String)
    (name : String) (handle : Option (String → Option Int)) :
    Int × Option String :=
  if name = GENERATE_CALLBACK then (0, none)
  else
    match handle with
    | some tbl =>
      match tbl name with
      | some fn => (fn, none)
      | none =>
        match global name with
        | some fn => (fn, none)
        | none => (0, some dlmsg)
    | none =>
      match global name with
      | some fn => (fn, none)
      | none => (0, some dlmsg)

/-! ## Prompt renderer (`cli_prompt_get`, cli_plugin.c) -/

/-- Environment read by the prompt renderer.
  - `hostname`: `none` models `gethostname` failing (nonzero return), in
    which case the source copies `"unknown"` into the buffer.
  - `user`: `getenv("USER")`.
  - `tty`: `none` models `ttyname_r` reporting failure with a negative
    return, in which case the source copies `"notty"`.
  - `editMode`: the `"cli-edit-mode"` datum (`clicon_data_get`); `none`
    models the datum being unset. -/
structure PromptEnv where
  hostname : Option String
  user : Option String
  tty : Option String
  editMode : Option String

def CLI_DEFAULT_PROMPT : String := "cli> "

/-- Separator test of the `%W` scan: `path[i] == '/' || path[i] == ':'`. -/
def isSep (c : Char) : Bool := c == '/' || c == ':'

/-- Index of the last separator in a character list, if any. -/
def findLastSep (cs : List Char) : Option Nat :=
  match cs.reverse.findIdx? isSep with
  | some r => some (cs.length - 1 - r)
  | none => none

/-- The `%W` scan on a nonempty edit path: the source walks `i` from
`strlen(path)-1` down and breaks at the first separator with
`i < strlen(path)-1`, i.e. at the last separator of `path` without its final
character; it then prints the suffix `&path[i+1]` (which keeps a trailing
separator), or the whole path when no such separator exists. -/
def wSegment (p : List Char) : List Char :=
  match findLastSep (p.take (p.length - 1)) with
  | some i => p.drop (i + 1)
  | none => p

/-- One `%X` escape of `cli_prompt_get`. -/
def promptEscape (env : PromptEnv) (c : Char) : List Char :=
  match c with
  | 'H' => (env.hostname.getD "unknown").data
  | 'U' => (env.user.getD "nobody").data
  | 'T' => (env.tty.getD "notty").data
  | 'W' =>
    match env.editMode with
    | some p => if p.length ≠ 0 then wSegment p.data else ['/']
    | none => ['/']
  | 'w' =>
    match env.editMode with
    | some p => if p.length ≠ 0 then p.data else ['/']
    | none => ['/']
  | _ => ['%', c]

/-- The scanning loop of `cli_prompt_get` accumulating into the cbuf.  A
format ending in a lone `%` or `\` makes the source read one byte past the
terminator (undefined behaviour); the model stops there, and no claim
depends on that case. -/
def promptExpand (env : PromptEnv) : List Char → List Char
  | [] => []
  | c :: rest =>
    if c = '%' then
      match rest with
      | [] => []
      | c2 :: rest2 => promptEscape env c2 ++ promptExpand env rest2
    else if c = '\\' then
      match rest with
      | [] => []
      | c2 :: rest2 =>
        (if c2 = 'n' then ['\n'] else ['\\', c2]) ++ promptExpand env rest2
    else c :: promptExpand env rest

/-- Embedding of `cli_prompt_get`: the expansion, except that an empty cbuf
falls back to the default prompt (`str0 = cbuf_len(cb) ? cbuf_get(cb) :
CLI_DEFAULT_PROMPT`). -/
def cli_prompt_get (env : PromptEnv) (fmt : String) : String :=
  let r := promptExpand env fmt.data
  if r.length ≠ 0 then String.mk r else CLI_DEFAULT_PROMPT

/-! ## Parse/eval step (`clicon_parse`, `cli_handler_err`, cli_plugin.c)

The cligen calls are oracles fixed in a `ParseCfg`: the set of registered
parse-tree heads, the outcome `cliread_parse` would report for this line, and
the handler's result.  Effects are collected in a `ParseEffects` record:
the C return value, every `fprintf` with its stream, the value stored through
`evalres`, and the mode made active by `cligen_ph_active_set_byname`.
-/

inductive Chan
  | out
  | err
deriving Repr, DecidableEq

/-- Result enum of `cliread_parse` as switched on by `clicon_parse`
(`CG_EOF`, `CG_ERROR`, `CG_NOMATCH`, `CG_MATCH`, and the `default` arm for
multiple matches). -/
inductive CligenResult
  | cgEof
  | cgError
  | cgNomatch
  | cgMatch
  | cgMultiple
deriving Repr, DecidableEq

/-- Linux `errno` value of `ESHUTDOWN`; only its identity matters. -/
def ESHUTDOWN : Int := 108

structure ParseCfg where
  /-- Names with a registered `pt_head` (`cligen_ph_find` succeeds). -/
  modes : List String
  /-- `clicon_get_logflags() & CLICON_LOG_STDOUT`. -/
  logStdout : Bool
  /-- `clicon_get_logflags() & CLICON_LOG_STDERR`. -/
  logStderr : Bool
  /-- `cligen_exiting(ch)`. -/
  exiting : Bool
  /-- `cliread_parse`: `Except.error ()` is its `< 0` exit; otherwise the
  reported result code. -/
  parseRes : Except Unit CligenResult
  /-- The `reason` string reported on `CG_NOMATCH`. -/
  reason : String
  /-- `cligen_eval` return value, when the handler runs. -/
  evalRet : Int
  /-- `clicon_suberrno` after the handler ran. -/
  evalSuberr : Int
  /-- `clicon_errno` after the handler ran (nonzero = set). -/
  evalErrnoSet : Bool
  /-- The `"<strerror>: <reason>[: <suberr>]\n"` text `cli_handler_err`
  would format from the error channel. -/
  errText : String
deriving Repr

/-- Embedding of `cli_handler_err f`: when `clicon_errno` is set, one line is
printed on `f` — the formatted error if stderr logging is off, else the fixed
`"CLI command error\n"`. -/
def cli_handler_err (cfg : ParseCfg) (f : Chan) : List (Chan × String) :=
  if cfg.evalErrnoSet then
    if !cfg.logStderr then [(f, cfg.errText)] else [(f, "CLI command error\n")]
  else []

structure ParseEffects where
  retval : Int
  printed : List (Chan × String)
  evalres : Option Int
  /-- Mode made active via `cligen_ph_active_set_byname`, if any. -/
  activeSet : Option String
deriving Repr, DecidableEq

/-- Embedding of `clicon_parse`.  `modename` is the mode string handed in
through `*modenamep`; in this version of the source it is never reassigned,
so the `strcmp(modename, *modenamep)` mode-switch branch at `CG_MATCH` is
unreachable and the active mode set on entry is the only mode change. -/
def clicon_parse (cfg : ParseCfg) (cmd : String) (modename : String) :
    ParseEffects :=
  let f := if cfg.logStdout then Chan.out else Chan.err
  if cfg.modes.contains modename then
    match cfg.parseRes with
    | Except.error _ => ⟨-1, [], none, some modename⟩
    | Except.ok res =>
      match res with
      | CligenResult.cgEof =>
        ⟨0, [(f, "CLI parse error: " ++ cmd ++ "\n")], none, some modename⟩
      | CligenResult.cgError =>
        ⟨0, [(f, "CLI parse error: " ++ cmd ++ "\n")], none, some modename⟩
      | CligenResult.cgNomatch =>
        ⟨0, [(f, "CLI syntax error: \"" ++ cmd ++ "\": " ++ cfg.reason ++ "\n")],
         none, some modename⟩
      | CligenResult.cgMatch =>
        if !cfg.exiting then
          if cfg.evalRet < 0 then
            let msgs := cli_handler_err cfg Chan.out
            if cfg.evalSuberr = ESHUTDOWN then ⟨-1, msgs, none, some modename⟩
            else ⟨0, msgs, some cfg.evalRet, some modename⟩
          else ⟨0, [], some cfg.evalRet, some modename⟩
        else ⟨0, [], some 0, some modename⟩
      | CligenResult.cgMultiple =>
        ⟨0, [(f, "CLI syntax error: \"" ++ cmd ++ "\" is ambiguous\n")],
         none, some modename⟩
  else ⟨0, [], none, none⟩

/-- The read-eval loop of `cli_interactive` (cli_main.c), restricted to its
use of `clicon_parse`: each step is a prepared line with its oracle; the
loop records each step's effects and breaks as soon as `clicon_parse`
returns a negative value. -/
def cli_interactive : List (ParseCfg × String × String) → List ParseEffects
  | [] => []
  | (cfg, cmd, mode) :: rest =>
    let e := clicon_parse cfg cmd mode
    if e.retval < 0 then [e] else e :: cli_interactive rest

/-! ## Clispec loader (`clispec_load_file`, `clispec_load`, cli_plugin.c)

For the universal-tree claim only the command sets matter, so a cligen parse
tree is modelled as the list of commands it accepts and
`cligen_parsetree_merge(dst, NULL, src)` as appending `src`'s commands to
`dst` (the merge unifies trees and afterwards the destination accepts every
command of both).  The `pt_head` registry of cligen is an association list
from mode name to tree, in registration order; `cligen_ph_find` finds the
first entry, `cligen_ph_add` appends a new one.  Prompt and callback
resolution are orthogonal to this claim and are not tracked.
-/

abbrev Tree := List String

abbrev Registry := List (String × Tree)

def lookupTree : Registry → String → Option Tree
  | [], _ => none
  | (k, t) :: rest, n => if k = n then some t else lookupTree rest n

/-- Update the tree of the first entry named `n` (the one `cligen_ph_find`
returns), leaving everything else alone. -/
def updateFirst : Registry → String → (Tree → Tree) → Registry
  | [], _, _ => []
  | (k, t) :: rest, n, f =>
    if k = n then (k, f t) :: rest else (k, t) :: updateFirst rest n f

/-- One clispec file, after `clispec_parse_file`: the commands of its parse
tree and its `CLICON_MODE` directive (`none` when absent from the file). -/
structure CliFile where
  cmds : Tree
  mode : Option String
deriving Repr

/-- The mode string `clispec_load_file` ends up using: the file's
`CLICON_MODE` if present and nonempty, else the `CLICON_CLI_MODE` option if
present and nonempty, else the fatal `"No syntax mode specified"` exit
(`none`). -/
def effMode (cliMode : Option String) (fileMode : Option String) :
    Option String :=
  let nonEmpty : Option String → Option String := fun o =>
    match o with
    | some s => if s.length < 1 then none else some s
    | none => none
  match nonEmpty fileMode with
  | some m => some m
  | none => nonEmpty cliMode

/-- Loader state threaded through `clispec_load`: the `pt_head` registry, the
universal tree `ptall`, and the `modes` cvec of mode names created during
this load. -/
structure LoadSt where
  reg : Registry
  ptall : Tree
  created : List String
deriving Repr

/-- Splitting at every occurrence of a separator character, as
`clicon_strsep(mode, ":")` does (consecutive separators yield empty
fields). -/
def splitChar (sep : Char) : List Char → List (List Char)
  | [] => [[]]
  | c :: rest =>
    match splitChar sep rest with
    | [] => [[]]
    | t :: ts => if c = sep then [] :: t :: ts else (c :: t) :: ts

/-- Model of `clicon_strsep(m, ":")`. -/
def clicon_strsep (m : String) : List String :=
  (splitChar ':' m.data).map String.mk

/-- The per-mode body of the `clispec_load_file` loop: when no `pt_head`
named `name` exists, create one with an empty tree and record the new mode in
the `modes` cvec; then merge the file's tree into the mode's tree. -/
def loadFileStep (cmds : Tree) (s : LoadSt) (name : String) : LoadSt :=
  if (lookupTree s.reg name).isSome then
    { s with reg := updateFirst s.reg name (fun t => t ++ cmds) }
  else
    { reg := updateFirst (s.reg ++ [(name, ([] : Tree))]) name
        (fun t => t ++ cmds),
      ptall := s.ptall,
      created := s.created ++ [name] }

/-- Embedding of `clispec_load_file`: split the mode string on `:`; a single
`*` merges the file's tree into the universal tree; otherwise each named mode
is created if missing (recording it in the `modes` cvec) and the file's tree
is merged into it.  `none` is the fatal no-mode exit. -/
def clispec_load_file (cliMode : Option String) (st : LoadSt)
    (file : CliFile) : Option LoadSt :=
  match effMode cliMode file.mode with
  | none => none
  | some m =>
    let vec := clicon_strsep m
    if vec = ["*"] then some { st with ptall := st.ptall ++ file.cmds }
    else some (vec.foldl (loadFileStep file.cmds) st)

/-- The per-file loop of `clispec_load` over an explicit clispec file and the
directory files, in that order. -/
def loadFiles (cliMode : Option String) : LoadSt → List CliFile →
    Option LoadSt
  | st, [] => some st
  | st, f :: fs =>
    match clispec_load_file cliMode st f with
    | none => none
    | some st' => loadFiles cliMode st' fs

/-- All files of a `clispec_load` run, in load order: the explicit
`CLICON_CLISPEC_FILE` first (when set), then the directory files. -/
def allFiles (fileOpt : Option CliFile) (dirFiles : List CliFile) :
    List CliFile :=
  match fileOpt with
  | some f => f :: dirFiles
  | none => dirFiles

/-- The state after all files of a `clispec_load` run have been loaded. -/
def clispec_load_core (cliMode : Option String) (init : Registry)
    (fileOpt : Option CliFile) (dirFiles : List CliFile) : Option LoadSt :=
  loadFiles cliMode ⟨init, [], []⟩ (allFiles fileOpt dirFiles)

/-- The final pass of `clispec_load`: if no mode was created the pass is the
`goto ok` shortcut; otherwise the universal tree is merged into the tree of
each mode recorded in the `modes` cvec — and only those. -/
def finalizeLoad (st : LoadSt) : Registry :=
  if st.created = [] then st.reg
  else st.created.foldl (fun r n => updateFirst r n (fun t => t ++ st.ptall))
    st.reg

/-- Embedding of `clispec_load`: load every file, then run the final
universal pass.  `init` is the `pt_head` registry as it stands when
`clispec_load` is entered (it may already contain modes, e.g. the generated
`datamodel:` tree). -/
def clispec_load (cliMode : Option String) (init : Registry)
    (fileOpt : Option CliFile) (dirFiles : List CliFile) : Option Registry :=
  (clispec_load_core cliMode init fileOpt dirFiles).map finalizeLoad

/-- The commands of every universal fragment (those whose effective mode
directive is the single `*`), in load order. -/
def universalCmds (cliMode : Option String) : List CliFile → Tree
  | [] => []
  | f :: fs =>
    (match effMode cliMode f.mode with
     | some m => if clicon_strsep m = ["*"] then f.cmds else []
     | none => []) ++ universalCmds cliMode fs

/-! ## Basic facts about the hash model -/

theorem hash_lookup_add (m : OptMap) (k v q : String) :
    hash_lookup (hash_add m k v) q = if q = k then some v else hash_lookup m q := by
  induction m with
  | nil =>
    by_cases h : q = k
    · subst h; simp [hash_add, hash_lookup]
    · have h' : ¬k = q := fun hh => h hh.symm
      simp [hash_add, hash_lookup, h, h']
  | cons p rest ih =>
    obtain ⟨k0, v0⟩ := p
    by_cases h1 : k0 = k
    · subst h1
      by_cases h : q = k0
      · subst h; simp [hash_add, hash_lookup]
      · have h' : ¬k0 = q := fun hh => h hh.symm
        simp [hash_add, hash_lookup, h, h']
    · by_cases h : k0 = q
      · subst h
        simp [hash_add, hash_lookup, h1]
      · simp [hash_add, hash_lookup, h1, h, ih]

theorem hash_lookup_del (m : OptMap) (k q : String) :
    hash_lookup (hash_del m k) q = if q = k then none else hash_lookup m q := by
  induction m with
  | nil => simp [hash_del, hash_lookup]
  | cons p rest ih =>
    obtain ⟨k0, v0⟩ := p
    by_cases h1 : k0 = k
    · subst h1
      by_cases h : q = k0
      · subst h; simp [hash_del, hash_lookup, ih]
      · have h' : ¬k0 = q := fun hh => h hh.symm
        simp [hash_del, hash_lookup, h, h', ih]
    · by_cases h : k0 = q
      · subst h
        simp [hash_del, hash_lookup, h1]
      · simp [hash_del, hash_lookup, h1, h, ih]

/-! ## Claim theorems -/

/-- C4: for every option key `k` and every string value `v`, after
`set_str(k, v)` the predicate `has(k)` holds and `get_str(k)` returns `v`
byte-exactly; if `del(k)` is then performed, `has(k)` is false. -/
theorem C4_set_get_del (m : OptMap) (k v : String) :
    clicon_option_exists (clicon_option_str_set m k v) k = true ∧
    clicon_option_str (clicon_option_str_set m k v) k = some v ∧
    clicon_option_exists (clicon_option_del (clicon_option_str_set m k v) k) k
      = false := by
  refine ⟨?_, ?_, ?_⟩ <;>
    simp [clicon_option_exists, clicon_option_str, clicon_option_str_set,
          clicon_option_del, hash_lookup_add, hash_lookup_del]

/-- C2 (code bug): on a store that passes the first two checks but lacks
`CLICON_BACKEND_DIR`, the sanity gate fails — but its diagnostic names
`CLICON_BACKEND_PIDFILE`, not the offending key: the message does not even
contain the string `CLICON_BACKEND_DIR`. -/
theorem C2_backend_dir_misreported :
    clicon_option_sanity [("CLICON_CLI_DIR", "d"), ("CLICON_CLISPEC_DIR", "d")]
        = Except.error "CLICON_BACKEND_PIDFILE not defined in config file" ∧
      ¬ ("CLICON_BACKEND_DIR".data <:+:
          "CLICON_BACKEND_PIDFILE not defined in config file".data) :=
  ⟨rfl, by decide⟩

/-- Sanity gate succeeds exactly when every required key is present (the
first half of the claim about `clicon_option_sanity`; the diagnostic half is
settled separately). -/
theorem clicon_option_sanity_ok_iff (copt : OptMap) :
    clicon_option_sanity copt = Except.ok () ↔
      ∀ k ∈ requiredOptions, (hash_lookup copt k).isSome := by
  unfold clicon_option_sanity
  constructor
  · intro h
    split_ifs at h with c1 c2 c3 c4 c5 c6 c7 c8 c9
    · intro k hk
      simp only [requiredOptions, List.mem_cons, List.not_mem_nil, or_false] at hk
      rcases hk with rfl | rfl | rfl | rfl | rfl | rfl | rfl | rfl | rfl
      · simpa [Option.isSome_iff_ne_none, Option.isNone_iff_eq_none] using c1
      · simpa [Option.isSome_iff_ne_none, Option.isNone_iff_eq_none] using c2
      · simpa [Option.isSome_iff_ne_none, Option.isNone_iff_eq_none] using c3
      · simpa [Option.isSome_iff_ne_none, Option.isNone_iff_eq_none] using c4
      · simpa [Option.isSome_iff_ne_none, Option.isNone_iff_eq_none] using c5
      · simpa [Option.isSome_iff_ne_none, Option.isNone_iff_eq_none] using c6
      · simpa [Option.isSome_iff_ne_none, Option.isNone_iff_eq_none] using c7
      · simpa [Option.isSome_iff_ne_none, Option.isNone_iff_eq_none] using c8
      · simpa [Option.isSome_iff_ne_none, Option.isNone_iff_eq_none] using c9
  · intro h
    have hs : ∀ k ∈ requiredOptions, ¬(hash_lookup copt k).isNone := by
      intro k hk
      simpa [Option.isNone_iff_eq_none, Option.isSome_iff_ne_none] using h k hk
    rw [if_neg (hs "CLICON_CLI_DIR" (by simp [requiredOptions])),
        if_neg (hs "CLICON_CLISPEC_DIR" (by simp [requiredOptions])),
        if_neg (hs "CLICON_BACKEND_DIR" (by simp [requiredOptions])),
        if_neg (hs "CLICON_NETCONF_DIR" (by simp [requiredOptions])),
        if_neg (hs "CLICON_RESTCONF_DIR" (by simp [requiredOptions])),
        if_neg (hs "CLICON_YANG_DIR" (by simp [requiredOptions])),
        if_neg (hs "CLICON_ARCHIVE_DIR" (by simp [requiredOptions])),
        if_neg (hs "CLICON_SOCK" (by simp [requiredOptions])),
        if_neg (hs "CLICON_BACKEND_PIDFILE" (by simp [requiredOptions]))]

/-- C3: the symbol resolver returns the null sentinel with a clear error
channel on the auto-generate token; otherwise it consults the plugin module
first and returns its result when that lookup's error channel is clear; only
on plugin-lookup failure (or with no handle) does it consult the
process-global symbol space; and when every lookup fails it returns the null
sentinel with the error channel set. -/
theorem C3_str2fn_resolution (global : String → Option Int) (dlmsg : String)
    (name : String) (handle : Option (String → Option Int)) :
    (name = GENERATE_CALLBACK →
       clixon_str2fn global dlmsg name handle = (0, none)) ∧
    (name ≠ GENERATE_CALLBACK → ∀ tbl fn, handle = some tbl →
       tbl name = some fn →
       clixon_str2fn global dlmsg name handle = (fn, none)) ∧
    (name ≠ GENERATE_CALLBACK →
       (handle = none ∨ ∃ tbl, handle = some tbl ∧ tbl name = none) →
       ∀ fn, global name = some fn →
       clixon_str2fn global dlmsg name handle = (fn, none)) ∧
    (name ≠ GENERATE_CALLBACK →
       (handle = none ∨ ∃ tbl, handle = some tbl ∧ tbl name = none) →
       global name = none →
       clixon_str2fn global dlmsg name handle = (0, some dlmsg)) := by
  refine ⟨?_, ?_, ?_, ?_⟩
  · intro h; simp [clixon_str2fn, h]
  · intro h tbl fn hh ht; subst hh; simp [clixon_str2fn, h, ht]
  · rintro h (hh | ⟨tbl, hh, ht⟩) fn hg
    · subst hh; simp [clixon_str2fn, h, hg]
    · subst hh; simp [clixon_str2fn, h, ht, hg]
  · rintro h (hh | ⟨tbl, hh, ht⟩) hg
    · subst hh; simp [clixon_str2fn, h, hg]
    · subst hh; simp [clixon_str2fn, h, ht, hg]

/-- Witness for C3 at concrete inputs: the auto-generate token resolves to
the null sentinel with a clear error; a plugin symbol wins over the global
space; the global space is used on plugin miss; a double miss sets the error
channel. -/
theorem C3_witness :
    clixon_str2fn (fun _ => some 9) "e" GENERATE_CALLBACK none = (0, none) ∧
    clixon_str2fn (fun _ => some 9) "e" "f"
        (some (fun n => if n = "f" then some 7 else none)) = (7, none) ∧
    clixon_str2fn (fun n => if n = "g" then some 3 else none) "e" "g"
        (some (fun _ => none)) = (3, none) ∧
    clixon_str2fn (fun _ => none) "e" "h" (some (fun _ => none))
      = (0, some "e") := by
  refine ⟨?_, ?_, ?_, ?_⟩
  · exact (C3_str2fn_resolution _ _ _ _).1 rfl
  · exact (C3_str2fn_resolution _ _ _ _).2.1 (by decide) _ 7 rfl (by simp)
  · exact (C3_str2fn_resolution _ _ _ _).2.2.1 (by decide)
      (Or.inr ⟨_, rfl, rfl⟩) 3 (by simp)
  · exact (C3_str2fn_resolution _ _ _ _).2.2.2 (by decide)
      (Or.inr ⟨_, rfl, rfl⟩) rfl

/-- C9: for every command string and every mode name without a registered
parse-tree head, `clicon_parse` returns 0 without parsing, evaluating,
printing, or touching the active mode. -/
theorem C9_unknown_mode_noop (cfg : ParseCfg) (cmd mode : String)
    (h : cfg.modes.contains mode = false) :
    clicon_parse cfg cmd mode =
      { retval := 0, printed := [], evalres := none, activeSet := none } := by
  have h' : mode ∉ cfg.modes := by simpa using h
  simp [clicon_parse, h']

/-- Witness for C9: a concrete configuration with only mode `base`
registered, asked to parse in mode `nosuch`. -/
theorem C9_witness :
    clicon_parse
        ⟨["base"], false, false, false, Except.ok CligenResult.cgMatch,
         "", 0, 0, false, ""⟩ "show" "nosuch" =
      { retval := 0, printed := [], evalres := none, activeSet := none } :=
  C9_unknown_mode_noop _ _ _ (by decide)

/-! ## Prompt renderer claims -/

theorem promptExpand_pct (env : PromptEnv) (c : Char) (rest : List Char) :
    promptExpand env ('%' :: c :: rest)
      = promptEscape env c ++ promptExpand env rest := by
  rw [promptExpand.eq_def]
  dsimp only
  rw [if_pos rfl]

theorem promptExpand_bs (env : PromptEnv) (c : Char) (rest : List Char) :
    promptExpand env ('\\' :: c :: rest)
      = (if c = 'n' then ['\n'] else ['\\', c]) ++ promptExpand env rest := by
  rw [promptExpand.eq_def]
  dsimp only
  rw [if_neg (by decide), if_pos rfl]

theorem promptExpand_plain (env : PromptEnv) (c : Char) (rest : List Char)
    (h1 : c ≠ '%') (h2 : c ≠ '\\') :
    promptExpand env (c :: rest) = c :: promptExpand env rest := by
  rw [promptExpand.eq_def]
  dsimp only
  rw [if_neg h1, if_neg h2]

theorem promptExpand_no_escape (env : PromptEnv) :
    ∀ cs : List Char, (∀ c ∈ cs, c ≠ '%' ∧ c ≠ '\\') →
      promptExpand env cs = cs := by
  intro cs h
  induction cs with
  | nil => rfl
  | cons c rest ih =>
    have hc := h c (by simp)
    have hr : ∀ x ∈ rest, x ≠ '%' ∧ x ≠ '\\' := fun x hx => h x (by simp [hx])
    rw [promptExpand_plain env c rest hc.1 hc.2, ih hr]

theorem promptEscape_other (env : PromptEnv) (c : Char)
    (h1 : c ≠ 'H') (h2 : c ≠ 'U') (h3 : c ≠ 'T') (h4 : c ≠ 'W')
    (h5 : c ≠ 'w') : promptEscape env c = ['%', c] := by
  unfold promptEscape
  split <;> simp_all

/-- C8 (amended): the prompt renderer is the identity on every nonempty
template containing no `%` or `\` escape; the empty template instead renders
the default prompt. -/
theorem C8_identity_nonempty (env : PromptEnv) (fmt : String)
    (h1 : fmt.data ≠ []) (h2 : ∀ c ∈ fmt.data, c ≠ '%' ∧ c ≠ '\\') :
    cli_prompt_get env fmt = fmt := by
  have he := promptExpand_no_escape env fmt.data h2
  have hlen : fmt.length ≠ 0 := by
    cases fmt with
    | mk d => simpa [String.length, List.length_eq_zero] using h1
  simp [cli_prompt_get, he, hlen]

/-- C8 counterexample: the renderer is not the identity on the empty
template — the empty cbuf makes `cli_prompt_get` return the default prompt
`"cli> "`, not `""`. -/
theorem C8_counterexample :
    cli_prompt_get ⟨none, none, none, none⟩ "" = "cli> " ∧
    ("cli> " : String) ≠ "" :=
  ⟨rfl, by decide⟩

/-- Witness for C8 at a concrete escape-free template. -/
theorem C8_witness : cli_prompt_get ⟨none, none, none, none⟩ "abc" = "abc" :=
  C8_identity_nonempty _ _ (by decide) (by decide)

/-- C7 (amended): the renderer expands `%H` to the hostname (fallback
`unknown`), `%U` to `USER` (fallback `nobody`), `%T` to stdin's tty name
(fallback `notty`), `%w` to the entire edit path, renders any other `%X` as
the two characters `%X`, `\n` as a newline, any other `\X` as the two
characters `\X`, and renders both `%W` and `%w` as `/` when the edit path is
missing or empty; but `%W` expands to the suffix of the edit path after the
last separator occurring before the path's final character — keeping a
trailing separator in the output (`/a/b/c/` renders `c/`, not `c`) — or to
the whole path when there is no such separator. -/
theorem C7_prompt_escapes (env : PromptEnv) (c : Char) (rest : List Char) :
    (promptExpand env ('%' :: 'H' :: rest)
       = (match env.hostname with
          | some h => h.data
          | none => "unknown".data) ++ promptExpand env rest) ∧
    (promptExpand env ('%' :: 'U' :: rest)
       = (match env.user with
          | some u => u.data
          | none => "nobody".data) ++ promptExpand env rest) ∧
    (promptExpand env ('%' :: 'T' :: rest)
       = (match env.tty with
          | some t => t.data
          | none => "notty".data) ++ promptExpand env rest) ∧
    ((env.editMode = none ∨ env.editMode = some "") →
       promptExpand env ('%' :: 'W' :: rest) = '/' :: promptExpand env rest ∧
       promptExpand env ('%' :: 'w' :: rest) = '/' :: promptExpand env rest) ∧
    (∀ p : String, env.editMode = some p → p.data ≠ [] →
       promptExpand env ('%' :: 'W' :: rest)
           = wSegment p.data ++ promptExpand env rest ∧
       promptExpand env ('%' :: 'w' :: rest)
           = p.data ++ promptExpand env rest) ∧
    (c ∉ (['H', 'U', 'T', 'W', 'w'] : List Char) →
       promptExpand env ('%' :: c :: rest) = '%' :: c :: promptExpand env rest) ∧
    (promptExpand env ('\\' :: 'n' :: rest) = '\n' :: promptExpand env rest) ∧
    (c ≠ 'n' →
       promptExpand env ('\\' :: c :: rest) = '\\' :: c :: promptExpand env rest) ∧
    (wSegment "/a/b/c/".data = "c/".data ∧ wSegment "/a/b/c".data = "c".data ∧
     wSegment "abc".data = "abc".data) := by
  refine ⟨?_, ?_, ?_, ?_, ?_, ?_, ?_, ?_, by decide, by decide, by decide⟩
  · cases hh : env.hostname <;> simp [promptExpand_pct, promptEscape, hh]
  · cases hh : env.user <;> simp [promptExpand_pct, promptEscape, hh]
  · cases hh : env.tty <;> simp [promptExpand_pct, promptEscape, hh]
  · rintro (hp | hp) <;> constructor <;>
      simp [promptExpand_pct, promptEscape, hp]
  · intro p hp hd
    have hl : p.length ≠ 0 := by
      cases p
      simpa [String.length, List.length_eq_zero] using hd
    constructor <;> simp [promptExpand_pct, promptEscape, hp, hl]
  · intro h
    have h' : c ≠ 'H' ∧ c ≠ 'U' ∧ c ≠ 'T' ∧ c ≠ 'W' ∧ c ≠ 'w' := by
      simpa using h
    obtain ⟨n1, n2, n3, n4, n5⟩ := h'
    simp [promptExpand_pct, promptEscape_other env c n1 n2 n3 n4 n5]
  · simp [promptExpand_bs]
  · intro hn
    simp [promptExpand_bs, hn]

/-- C7 counterexample: with edit path `/a/b/c/` the claim expects `%W` to
render the last segment `c`, but the rendered text is `c/` (the suffix from
the separator search keeps the trailing separator). -/
theorem C7_counterexample :
    cli_prompt_get ⟨some "h", some "u", some "t", some "/a/b/c/"⟩ "%W" = "c/" ∧
    ("c/" : String) ≠ "c" :=
  ⟨rfl, by decide⟩

/-- Witness for C7 at concrete inputs: `%H` falls back to `unknown`, `%W`
renders `c/` from `/a/b/c/`, and an unknown escape `%X` is kept verbatim. -/
theorem C7_witness :
    promptExpand ⟨none, none, none, some "/a/b/c/"⟩ ['%', 'H']
        = "unknown".data ∧
    promptExpand ⟨none, none, none, some "/a/b/c/"⟩ ['%', 'W'] = "c/".data ∧
    promptExpand ⟨none, none, none, some "/a/b/c/"⟩ ['%', 'X'] = ['%', 'X'] := by
  have h := C7_prompt_escapes ⟨none, none, none, some "/a/b/c/"⟩ 'X' []
  refine ⟨by simpa using h.1, ?_, by simpa using h.2.2.2.2.2.1 (by decide)⟩
  have h5 := (h.2.2.2.2.1 "/a/b/c/" rfl (by decide)).1
  exact h5.trans (by decide)

/-! ## Parse/eval loop claims -/

/-- C6 (amended): when the matched handler fails with sub-error `Shutdown`,
`clicon_parse` returns an error and the read-eval loop terminates without
processing further lines; for every other handler error the diagnostic is
rendered on stdout (the source calls `cli_handler_err(stdout)`), not stderr,
`clicon_parse` returns 0, and the loop continues with the next line. -/
theorem C6_shutdown_propagates (cfg : ParseCfg) (cmd mode : String)
    (rest : List (ParseCfg × String × String))
    (hm : cfg.modes.contains mode = true)
    (hp : cfg.parseRes = Except.ok CligenResult.cgMatch)
    (hx : cfg.exiting = false)
    (he : cfg.evalRet < 0) :
    (cfg.evalSuberr = ESHUTDOWN →
       (clicon_parse cfg cmd mode).retval = -1 ∧
       cli_interactive ((cfg, cmd, mode) :: rest)
         = [clicon_parse cfg cmd mode]) ∧
    (cfg.evalSuberr ≠ ESHUTDOWN →
       (clicon_parse cfg cmd mode).retval = 0 ∧
       (∀ p ∈ (clicon_parse cfg cmd mode).printed, p.1 = Chan.out) ∧
       cli_interactive ((cfg, cmd, mode) :: rest)
         = clicon_parse cfg cmd mode :: cli_interactive rest) := by
  have hm' : mode ∈ cfg.modes := by simpa using hm
  have hout : ∀ p ∈ cli_handler_err cfg Chan.out, p.1 = Chan.out := by
    intro p hp2
    unfold cli_handler_err at hp2
    split_ifs at hp2 <;> simp_all
  constructor
  · intro hs
    constructor
    · simp [clicon_parse, hm', hp, hx, he, hs]
    · have hr : (clicon_parse cfg cmd mode).retval = -1 := by
        simp [clicon_parse, hm', hp, hx, he, hs]
      simp [cli_interactive, hr]
  · intro hs
    refine ⟨?_, ?_, ?_⟩
    · simp [clicon_parse, hm', hp, hx, he, hs]
    · intro p hp2
      have : (clicon_parse cfg cmd mode).printed
          = cli_handler_err cfg Chan.out := by
        simp [clicon_parse, hm', hp, hx, he, hs]
      exact hout p (this ▸ hp2)
    · have hr : (clicon_parse cfg cmd mode).retval = 0 := by
        simp [clicon_parse, hm', hp, hx, he, hs]
      simp [cli_interactive, hr]

/-- C6 counterexample: a handler error with a non-`Shutdown` sub-error is
rendered on stdout — the single printed line goes to the stdout channel, not
stderr as the claim states. -/
theorem C6_counterexample :
    clicon_parse
        ⟨["base"], false, false, false, Except.ok CligenResult.cgMatch,
         "", -1, 0, true, "Operation failed: err\n"⟩ "c" "base"
      = { retval := 0,
          printed := [(Chan.out, "Operation failed: err\n")],
          evalres := some (-1), activeSet := some "base" } ∧
    Chan.out ≠ Chan.err :=
  ⟨rfl, by decide⟩

/-- Witness for C6 at concrete configurations: a `Shutdown` sub-error stops
the loop; any other sub-error keeps it running and prints on stdout. -/
theorem C6_witness :
    ((clicon_parse
        ⟨["base"], false, false, false, Except.ok CligenResult.cgMatch,
         "", -1, ESHUTDOWN, true, "E\n"⟩ "c" "base").retval = -1 ∧
     cli_interactive
        [(⟨["base"], false, false, false, Except.ok CligenResult.cgMatch,
           "", -1, ESHUTDOWN, true, "E\n"⟩, "c", "base"),
         (⟨["base"], false, false, false, Except.ok CligenResult.cgMatch,
           "", 0, 0, false, ""⟩, "d", "base")]
       = [clicon_parse
            ⟨["base"], false, false, false, Except.ok CligenResult.cgMatch,
             "", -1, ESHUTDOWN, true, "E\n"⟩ "c" "base"]) ∧
    ((clicon_parse
        ⟨["base"], false, false, false, Except.ok CligenResult.cgMatch,
         "", -1, 0, true, "E\n"⟩ "c" "base").retval = 0 ∧
     (∀ p ∈ (clicon_parse
        ⟨["base"], false, false, false, Except.ok CligenResult.cgMatch,
         "", -1, 0, true, "E\n"⟩ "c" "base").printed, p.1 = Chan.out) ∧
     cli_interactive
        [(⟨["base"], false, false, false, Except.ok CligenResult.cgMatch,
           "", -1, 0, true, "E\n"⟩, "c", "base")]
       = clicon_parse
           ⟨["base"], false, false, false, Except.ok CligenResult.cgMatch,
            "", -1, 0, true, "E\n"⟩ "c" "base" :: cli_interactive []) := by
  constructor
  · exact (C6_shutdown_propagates _ "c" "base" _ (by decide) rfl rfl
      (by norm_num)).1 rfl
  · exact (C6_shutdown_propagates _ "c" "base" _ (by decide) rfl rfl
      (by norm_num)).2 (by decide)

/-! ## Config-file loader claim -/

theorem tokensAux_append_space (c : Char) (hc : isSpaceC c = true) :
    ∀ (cs : List Char) (acc : List Char),
      tokensAux (cs ++ [c]) acc = tokensAux cs acc := by
  intro cs
  induction cs with
  | nil =>
    intro acc
    simp [tokensAux, hc]
  | cons d rest ih =>
    intro acc
    by_cases hd : isSpaceC d <;> simp [tokensAux, hd, ih]

theorem takeWhile_of_all {α : Type} (p : α → Bool) :
    ∀ l : List α, (∀ a ∈ l, p a = true) → l.takeWhile p = l := by
  intro l h
  induction l with
  | nil => rfl
  | cons a rest ih =>
    have ha := h a (by simp)
    simp [List.takeWhile_cons, ha, ih (fun x hx => h x (by simp [hx]))]

/-- Replacing the text from the first `#` with a newline and removing it
outright produce the same token list, since the newline is whitespace to the
tokenizer. -/
theorem commentStrip_tokens (cs : List Char) :
    lineTokens (commentStrip cs) = lineTokens (specCommentStrip cs) := by
  unfold commentStrip specCommentStrip lineTokens
  by_cases h : cs.contains '#'
  · simp only [h, if_true]
    exact tokensAux_append_space '\n' (by decide) _ []
  · rw [if_neg h]
    have h' : '#' ∉ cs := by simpa using h
    have hall : ∀ c ∈ cs, (c != '#') = true := by
      intro c hc
      have hcc : c ≠ '#' := fun e => h' (e ▸ hc)
      simpa using hcc
    rw [takeWhile_of_all _ cs hall]

theorem processLine_lookup (m : OptMap) (f : SpecMap) (line : String)
    (hmf : ∀ k, hash_lookup m k = f k) (q : String) :
    hash_lookup (processLine m line) q = specProcessLine f line q := by
  unfold processLine specProcessLine
  rw [commentStrip_tokens]
  rcases h : lineTokens (specCommentStrip line.data) with _ | ⟨k, _ | ⟨v, ts⟩⟩
  · simpa using hmf q
  · simpa using hmf q
  · simp only []
    rw [hash_lookup_add]
    unfold specInsert
    by_cases hq : q = String.mk k <;> simp [hq, hmf q]

theorem foldl_lookup (lines : List String) :
    ∀ (m : OptMap) (f : SpecMap), (∀ k, hash_lookup m k = f k) →
      ∀ q, hash_lookup (lines.foldl processLine m) q
        = (lines.foldl specProcessLine f) q := by
  induction lines with
  | nil =>
    intro m f hmf q
    simpa using hmf q
  | cons l rest ih =>
    intro m f hmf q
    simp only [List.foldl_cons]
    exact ih _ _ (fun k => processLine_lookup m f l hmf k) q

/-- C5: the loader agrees with the specification's description — it fails
exactly on an unnamed or empty path, a path that cannot be `stat`ed or
opened, or a non-regular file (with the same diagnostic); and on success the
resulting store is pointwise the spec-side store: comments stripped from the
first `#`, lines with fewer than two whitespace-separated tokens skipped
(including empty-value lines), and each (key, value) pair inserted with
later insertions overwriting earlier ones. -/
theorem C5_readfile_refines_spec (copt : OptMap) (f0 : SpecMap)
    (filename : Option String) (fs : String → Option FsFile)
    (hinit : ∀ k, hash_lookup copt k = f0 k) :
    (∀ e, clicon_option_readfile copt filename fs = Except.error e ↔
        specReadfile f0 filename fs = Except.error e) ∧
    (∀ m g, clicon_option_readfile copt filename fs = Except.ok m →
        specReadfile f0 filename fs = Except.ok g →
        ∀ q, hash_lookup m q = g q) ∧
    ((∃ e, clicon_option_readfile copt filename fs = Except.error e) ↔
        filename = none ∨
        ∃ fn, filename = some fn ∧
          (fn.length = 0 ∨ fs fn = none ∨
           ∃ file, fs fn = some file ∧
             (file.regular = false ∨ file.openable = false))) := by
  unfold clicon_option_readfile specReadfile
  rcases filename with _ | fn
  · simp
  · by_cases hl : fn.length = 0
    · simp [hl]
    · rcases hf : fs fn with _ | ⟨reg, op, lines⟩
      · simp [hl, hf]
      · cases reg <;> cases op <;> simp [hl, hf]
        apply foldl_lookup lines copt f0 hinit

/-- Witness for C5: the refinement applied to a concrete store, file system
and file (one comment-bearing key/value line), evaluated at the stored
key. -/
theorem C5_witness :
    hash_lookup [("A", "1")] "A" = specInsert (fun _ => none) "A" "1" "A" := by
  have h := C5_readfile_refines_spec [] (fun _ => none) (some "cfg")
      (fun p =>
        if p = "cfg" then some ⟨true, true, ["A 1 # c"]⟩ else none)
      (fun _ => rfl)
  exact h.2.1 [("A", "1")] (specInsert (fun _ => none) "A" "1") rfl rfl "A"

/-! ## Integer option round-trip claim -/

/-- Digit facts used by the decimal round-trip: for `d < 10`, `digitChar d`
is a decimal digit whose value is `d`, is not whitespace, and is not a
sign. -/
theorem digitChar_props (d : Nat) (h : d < 10) :
    charVal (Nat.digitChar d) = d ∧ (Nat.digitChar d).isDigit = true ∧
    isSpaceC (Nat.digitChar d) = false ∧ Nat.digitChar d ≠ '-' ∧
    Nat.digitChar d ≠ '+' := by
  interval_cases d <;> exact ⟨by decide, by decide, by decide, by decide,
    by decide⟩

/-- The fuelled digit printer agrees with `Nat.digits`. -/
theorem uDecimalAux_eq_digits :
    ∀ (fuel n : Nat) (acc : List Char), n < 10 ^ fuel →
      uDecimalAux fuel n acc
        = (Nat.digits 10 n).reverse.map Nat.digitChar ++ acc := by
  intro fuel
  induction fuel with
  | zero =>
    intro n acc hn
    have : n = 0 := by omega
    simp [this, uDecimalAux]
  | succ f ih =>
    intro n acc hn
    by_cases h0 : n = 0
    · simp [h0, uDecimalAux]
    · have hdiv : n / 10 < 10 ^ f := by
        rw [Nat.div_lt_iff_lt_mul (by norm_num)]
        calc n < 10 ^ (f + 1) := hn
        _ = 10 ^ f * 10 := by ring
      rw [uDecimalAux, if_neg h0, ih (n / 10) _ hdiv]
      rw [Nat.digits_def' (by norm_num : (1 : Nat) < 10) (Nat.pos_of_ne_zero h0)]
      simp

/-- The decimal parse of the fold, over most-significant-first digits. -/
theorem foldl_digits (ds : List Nat) :
    ∀ a : Nat, (∀ d ∈ ds, d < 10) →
      ((ds.reverse.map Nat.digitChar).foldl (fun x c => 10 * x + charVal c) a)
        = a * 10 ^ ds.length + Nat.ofDigits 10 ds := by
  induction ds with
  | nil =>
    intro a _
    simp [Nat.ofDigits]
  | cons d rest ih =>
    intro a h
    have hd := h d (by simp)
    have hr : ∀ x ∈ rest, x < 10 := fun x hx => h x (by simp [hx])
    simp only [List.reverse_cons, List.map_append, List.foldl_append,
      List.map_cons, List.map_nil, List.foldl_cons, List.foldl_nil]
    rw [ih a hr, (digitChar_props d hd).1, Nat.ofDigits_cons]
    simp only [List.length_cons]
    ring

/-- The `strtol` model on a list starting with a decimal digit reads the
digit run with no sign. -/
theorem strtolVal_digit_head (c : Char) (cs : List Char)
    (hs : isSpaceC c = false) (hm : c ≠ '-') (hp : c ≠ '+') :
    strtolVal (c :: cs) = (parseNatDigits (c :: cs) : Int) := by
  unfold strtolVal
  rw [List.dropWhile_cons_of_neg (by simp [hs])]
  split <;> simp_all

/-- Parsing the printed decimal digits of `u < 2^32` recovers `u`. -/
theorem parse_uDecimal (u : Nat) (hu : u < 2 ^ 32) :
    strtolVal (uDecimalChars u) = (u : Int) := by
  by_cases h0 : u = 0
  · subst h0; decide
  · have h32 : u < 10 ^ 32 :=
      lt_of_lt_of_le hu (Nat.pow_le_pow_left (by norm_num) 32)
    unfold uDecimalChars
    rw [if_neg h0, uDecimalAux_eq_digits 32 u [] h32, List.append_nil]
    have hds : ∀ d ∈ Nat.digits 10 u, d < 10 :=
      fun d hd => Nat.digits_lt_base (by norm_num) hd
    rcases hrev : (Nat.digits 10 u).reverse with _ | ⟨d, rest⟩
    · exact absurd (by simpa using congrArg List.length hrev)
        (by simpa [Nat.digits_ne_nil_iff_ne_zero] using h0)
    · have hd10 : d < 10 := hds d (by
        have : d ∈ (Nat.digits 10 u).reverse := by simp [hrev]
        simpa using this)
      obtain ⟨hval, hdig, hsp, hmm, hpp⟩ := digitChar_props d hd10
      rw [List.map_cons, strtolVal_digit_head _ _ hsp hmm hpp]
      have hall : ∀ c ∈ Nat.digitChar d :: rest.map Nat.digitChar,
          c.isDigit = true := by
        intro c hc
        rcases List.mem_cons.mp hc with rfl | hc2
        · exact hdig
        · obtain ⟨d2, hd2, rfl⟩ := List.mem_map.mp hc2
          have : d2 ∈ Nat.digits 10 u := by
            have : d2 ∈ (Nat.digits 10 u).reverse := by simp [hrev, hd2]
            simpa using this
          exact (digitChar_props d2 (hds d2 this)).2.1
      unfold parseNatDigits
      rw [takeWhile_of_all _ _ hall, ← List.map_cons, ← hrev]
      rw [foldl_digits (Nat.digits 10 u) 0 hds]
      simp [Nat.ofDigits_digits]

/-- C10 (amended): the integer setter formats with the unsigned conversion
`%u`, so for every negative `v` the stored text is the decimal of
`v + 2^32`, not of `v`; but `atoi`'s narrowing on the target platform wraps
modulo `2^32`, so the round-trip `set_int; get_int` returns `v` for every
value in the 32-bit `int` range, negative values included. -/
theorem C10_int_roundtrip (m : OptMap) (k : String) (v : Int)
    (h1 : -(2 ^ 31) ≤ v) (h2 : v < 2 ^ 31) :
    clicon_option_str (clicon_option_int_set m k v) k
        = some (String.mk (uDecimalChars ((v % 2 ^ 32).toNat))) ∧
    (v < 0 → v % 2 ^ 32 = v + 2 ^ 32) ∧
    clicon_option_int (clicon_option_int_set m k v) k = v := by
  have hs : clicon_option_str (clicon_option_int_set m k v) k
      = some (String.mk (uDecimalChars ((v % 2 ^ 32).toNat))) := by
    simp [clicon_option_int_set, clicon_option_str, clicon_option_str_set,
      hash_lookup_add]
  refine ⟨hs, fun hv => by omega, ?_⟩
  have hmod1 : (0 : Int) ≤ v % 2 ^ 32 := by omega
  have hmod2 : v % 2 ^ 32 < 2 ^ 32 := by omega
  have hu : (v % 2 ^ 32).toNat < 2 ^ 32 := by omega
  unfold clicon_option_int
  rw [hs]
  unfold atoi
  dsimp only
  rw [parse_uDecimal _ hu]
  have hcast : (((v % 2 ^ 32).toNat : Int)) = v % 2 ^ 32 :=
    Int.toNat_of_nonneg hmod1
  unfold clampLong wrap32
  rw [hcast, min_eq_right (by omega : v % 2 ^ 32 ≤ 2 ^ 63 - 1),
    max_eq_right (by omega : -(2 ^ 63) ≤ v % 2 ^ 32)]
  omega

/-- C10 counterexample: at `v = -1` the stored text is the unsigned
rendition `4294967295`, yet `get_int` does return `-1 = v` — the narrowing
in `atoi` wraps it back, contradicting the claim that the round-trip never
returns a negative `v`. -/
theorem C10_counterexample :
    clicon_option_int (clicon_option_int_set [] "x" (-1)) "x" = -1 ∧
    clicon_option_str (clicon_option_int_set [] "x" (-1)) "x"
      = some "4294967295" :=
  ⟨rfl, rfl⟩

/-- Witness for C10 at the concrete in-range value `-7`. -/
theorem C10_witness :
    clicon_option_int (clicon_option_int_set [] "y" (-7)) "y" = -7 :=
  (C10_int_roundtrip [] "y" (-7) (by norm_num) (by norm_num)).2.2

/-! ## Clispec loader claim -/

theorem lookupTree_updateFirst_same (r : Registry) (n : String)
    (f : Tree → Tree) :
    lookupTree (updateFirst r n f) n = (lookupTree r n).map f := by
  induction r with
  | nil => rfl
  | cons p rest ih =>
    obtain ⟨k, t⟩ := p
    by_cases h : k = n
    · subst h; simp [updateFirst, lookupTree]
    · simp [updateFirst, lookupTree, h, ih]

theorem lookupTree_updateFirst_ne (r : Registry) (n m : String)
    (f : Tree → Tree) (h : m ≠ n) :
    lookupTree (updateFirst r n f) m = lookupTree r m := by
  induction r with
  | nil => rfl
  | cons p rest ih =>
    obtain ⟨k, t⟩ := p
    by_cases hk : k = n
    · subst hk
      have hkm : ¬k = m := fun e => h e.symm
      simp [updateFirst, lookupTree, hkm]
    · by_cases hm : k = m
      · subst hm; simp [updateFirst, lookupTree, hk]
      · simp [updateFirst, lookupTree, hk, hm, ih]

theorem lookupTree_append_of_none (r r2 : Registry) (n : String)
    (h : lookupTree r n = none) :
    lookupTree (r ++ r2) n = lookupTree r2 n := by
  induction r with
  | nil => rfl
  | cons p rest ih =>
    obtain ⟨k, t⟩ := p
    by_cases hk : k = n
    · exfalso
      rw [lookupTree, if_pos hk] at h
      exact Option.noConfusion h
    · rw [lookupTree, if_neg hk] at h
      rw [List.cons_append, lookupTree, if_neg hk]
      exact ih h

theorem lookupTree_append_of_some (r r2 : Registry) (n : String) (t : Tree)
    (h : lookupTree r n = some t) :
    lookupTree (r ++ r2) n = some t := by
  induction r with
  | nil => exact Option.noConfusion h
  | cons p rest ih =>
    obtain ⟨k, t0⟩ := p
    by_cases hk : k = n
    · rw [lookupTree, if_pos hk] at h
      rw [List.cons_append, lookupTree, if_pos hk]
      exact h
    · rw [lookupTree, if_neg hk] at h
      rw [List.cons_append, lookupTree, if_neg hk]
      exact ih h

/-- `loadFileStep` keeps every mode of the `modes` cvec registered. -/
theorem loadFileStep_keys (cmds : Tree) (s : LoadSt) (name : String)
    (h : ∀ n ∈ s.created, (lookupTree s.reg n).isSome) :
    ∀ n ∈ (loadFileStep cmds s name).created,
      (lookupTree (loadFileStep cmds s name).reg n).isSome := by
  intro n hn
  unfold loadFileStep at hn ⊢
  by_cases hex : (lookupTree s.reg name).isSome
  · rw [if_pos hex] at hn ⊢
    dsimp only at hn ⊢
    by_cases hnn : n = name
    · subst hnn
      rw [lookupTree_updateFirst_same]
      simpa using hex
    · rw [lookupTree_updateFirst_ne _ _ _ _ hnn]
      exact h n hn
  · rw [if_neg hex] at hn ⊢
    dsimp only at hn ⊢
    have hnone : lookupTree s.reg name = none := by
      simpa [Option.isNone_iff_eq_none] using hex
    by_cases hnn : n = name
    · subst hnn
      rw [lookupTree_updateFirst_same,
        lookupTree_append_of_none _ _ _ hnone]
      simp [lookupTree]
    · rw [lookupTree_updateFirst_ne _ _ _ _ hnn]
      rcases List.mem_append.mp hn with hn1 | hn2
      · obtain ⟨t, ht⟩ := Option.isSome_iff_exists.mp (h n hn1)
        rw [lookupTree_append_of_some _ _ _ _ ht]
        rfl
      · exact absurd (by simpa using hn2) hnn

theorem foldl_steps_keys (cmds : Tree) (vec : List String) :
    ∀ s : LoadSt, (∀ n ∈ s.created, (lookupTree s.reg n).isSome) →
      ∀ n ∈ (vec.foldl (loadFileStep cmds) s).created,
        (lookupTree (vec.foldl (loadFileStep cmds) s).reg n).isSome := by
  induction vec with
  | nil => intro s h; simpa using h
  | cons v rest ih =>
    intro s h
    simp only [List.foldl_cons]
    exact ih _ (loadFileStep_keys cmds s v h)

theorem clispec_load_file_keys (cliMode : Option String) (st : LoadSt)
    (file : CliFile) (st' : LoadSt)
    (h : clispec_load_file cliMode st file = some st')
    (hk : ∀ n ∈ st.created, (lookupTree st.reg n).isSome) :
    ∀ n ∈ st'.created, (lookupTree st'.reg n).isSome := by
  unfold clispec_load_file at h
  cases he : effMode cliMode file.mode with
  | none => rw [he] at h; exact absurd h (by simp)
  | some m =>
    rw [he] at h
    dsimp only at h
    by_cases hv : clicon_strsep m = ["*"]
    · rw [if_pos hv] at h
      obtain rfl : _ = st' := Option.some.inj h
      simpa using hk
    · rw [if_neg hv] at h
      obtain rfl : _ = st' := Option.some.inj h
      exact foldl_steps_keys file.cmds (clicon_strsep m) st hk

theorem loadFiles_keys (cliMode : Option String) (files : List CliFile) :
    ∀ st st' : LoadSt, loadFiles cliMode st files = some st' →
      (∀ n ∈ st.created, (lookupTree st.reg n).isSome) →
      ∀ n ∈ st'.created, (lookupTree st'.reg n).isSome := by
  induction files with
  | nil =>
    intro st st' h hk
    obtain rfl : st = st' := Option.some.inj h
    exact hk
  | cons f fs ih =>
    intro st st' h hk
    unfold loadFiles at h
    cases hstep : clispec_load_file cliMode st f with
    | none => rw [hstep] at h; exact absurd h (by simp)
    | some st1 =>
      rw [hstep] at h
      exact ih st1 st' h (clispec_load_file_keys cliMode st f st1 hstep hk)

theorem loadFileStep_ptall (cmds : Tree) (s : LoadSt) (name : String) :
    (loadFileStep cmds s name).ptall = s.ptall := by
  unfold loadFileStep
  split <;> rfl

theorem foldl_steps_ptall (cmds : Tree) (vec : List String) :
    ∀ s : LoadSt, (vec.foldl (loadFileStep cmds) s).ptall = s.ptall := by
  induction vec with
  | nil => intro s; rfl
  | cons v rest ih =>
    intro s
    simp only [List.foldl_cons]
    rw [ih, loadFileStep_ptall]

/-- The universal tree accumulated by the load is exactly the concatenation
of the universal fragments' commands. -/
theorem loadFiles_ptall (cliMode : Option String) (files : List CliFile) :
    ∀ st st' : LoadSt, loadFiles cliMode st files = some st' →
      st'.ptall = st.ptall ++ universalCmds cliMode files := by
  induction files with
  | nil =>
    intro st st' h
    obtain rfl : st = st' := Option.some.inj h
    simp [universalCmds]
  | cons f fs ih =>
    intro st st' h
    unfold loadFiles at h
    cases hstep : clispec_load_file cliMode st f with
    | none => rw [hstep] at h; exact absurd h (by simp)
    | some st1 =>
      rw [hstep] at h
      have hrest := ih st1 st' h
      unfold clispec_load_file at hstep
      cases he : effMode cliMode f.mode with
      | none => rw [he] at hstep; exact absurd hstep (by simp)
      | some m =>
        rw [he] at hstep
        dsimp only at hstep
        by_cases hv : clicon_strsep m = ["*"]
        · rw [if_pos hv] at hstep
          obtain rfl : _ = st1 := Option.some.inj hstep
          rw [hrest]
          simp [universalCmds, he, hv]
        · rw [if_neg hv] at hstep
          obtain rfl : _ = st1 := Option.some.inj hstep
          rw [hrest, foldl_steps_ptall]
          simp [universalCmds, he, hv]

/-- The final merge pass preserves a tree that already holds the universal
commands. -/
theorem finalize_fold_keeps (pt : Tree) (ms : List String) :
    ∀ (r : Registry) (n : String),
      (∃ t, lookupTree r n = some t ∧ ∀ c ∈ pt, c ∈ t) →
      ∃ t', lookupTree
          (ms.foldl (fun r2 n2 => updateFirst r2 n2 (fun tt => tt ++ pt)) r) n
          = some t' ∧ ∀ c ∈ pt, c ∈ t' := by
  induction ms with
  | nil => intro r n h; simpa using h
  | cons m ms ih =>
    intro r n h
    simp only [List.foldl_cons]
    apply ih
    obtain ⟨t, hl, hc⟩ := h
    by_cases hnm : n = m
    · subst hnm
      refine ⟨t ++ pt, ?_, ?_⟩
      · rw [lookupTree_updateFirst_same, hl]; rfl
      · intro c hcp; exact List.mem_append.mpr (Or.inl (hc c hcp))
    · exact ⟨t, by rw [lookupTree_updateFirst_ne _ _ _ _ hnm]; exact hl, hc⟩

/-- The final merge pass puts the universal commands into the tree of every
mode of the `modes` cvec. -/
theorem finalize_fold_adds (pt : Tree) (ms : List String) :
    ∀ (r : Registry) (n : String), n ∈ ms → (lookupTree r n).isSome →
      ∃ t', lookupTree
          (ms.foldl (fun r2 n2 => updateFirst r2 n2 (fun tt => tt ++ pt)) r) n
          = some t' ∧ ∀ c ∈ pt, c ∈ t' := by
  induction ms with
  | nil => intro r n hn; exact absurd hn (by simp)
  | cons m ms ih =>
    intro r n hn hsome
    simp only [List.foldl_cons]
    by_cases hnm : n = m
    · subst hnm
      apply finalize_fold_keeps
      obtain ⟨t, ht⟩ := Option.isSome_iff_exists.mp hsome
      refine ⟨t ++ pt, ?_, ?_⟩
      · rw [lookupTree_updateFirst_same, ht]; rfl
      · intro c hcp; exact List.mem_append.mpr (Or.inr hcp)
    · rcases List.mem_cons.mp hn with h1 | h2
      · exact absurd h1 hnm
      · apply ih _ _ h2
        rw [lookupTree_updateFirst_ne _ _ _ _ hnm]
        exact hsome

/-- C1 (amended): after a successful grammar load, the universal tree — the
concatenation of every fragment whose effective MODE directive is `*` — has
been merged into the parse tree of every mode *created during this load*
(the modes recorded in the `modes` cvec), so each of those modes accepts
every command of every universal fragment.  Modes that already existed when
`clispec_load` was entered (such as the generated `datamodel:` mode) are not
in the cvec and do not receive the universal tree. -/
theorem C1_universal_into_created_modes (cliMode : Option String)
    (init : Registry) (fileOpt : Option CliFile) (dirFiles : List CliFile)
    (st : LoadSt)
    (hcore : clispec_load_core cliMode init fileOpt dirFiles = some st) :
    clispec_load cliMode init fileOpt dirFiles = some (finalizeLoad st) ∧
    st.ptall = universalCmds cliMode (allFiles fileOpt dirFiles) ∧
    ∀ n ∈ st.created, ∀ c ∈ st.ptall, ∃ t,
      lookupTree (finalizeLoad st) n = some t ∧ c ∈ t := by
  refine ⟨?_, ?_, ?_⟩
  · unfold clispec_load
    rw [show clispec_load_core cliMode init fileOpt dirFiles = some st
        from hcore]
    rfl
  · have h := loadFiles_ptall cliMode (allFiles fileOpt dirFiles)
      ⟨init, [], []⟩ st hcore
    simpa using h
  · intro n hn c hc
    have hkeys : ∀ n2 ∈ st.created, (lookupTree st.reg n2).isSome :=
      loadFiles_keys cliMode (allFiles fileOpt dirFiles) ⟨init, [], []⟩ st
        hcore (by simp)
    unfold finalizeLoad
    have hne : ¬st.created = [] := by
      intro h0
      rw [h0] at hn
      simp at hn
    rw [if_neg hne]
    obtain ⟨t', hl, hp⟩ :=
      finalize_fold_adds st.ptall st.created st.reg n hn (hkeys n hn)
    exact ⟨t', hl, hp c hc⟩

/-- C1 counterexample: a pre-existing mode (the generated `datamodel:x`) does
not receive the universal fragment.  With one universal file defining `show`
and one `oper` file defining `exit`, the final registry gives `oper` both
commands but leaves `datamodel:x` empty, although `show` is a universal
command — so not every mode known to the registry accepts every universal
command. -/
theorem C1_counterexample :
    clispec_load (some "base") [("datamodel:x", [])] none
        [⟨["show"], some "*"⟩, ⟨["exit"], some "oper"⟩]
      = some [("datamodel:x", []), ("oper", ["exit", "show"])] ∧
    "show" ∈ universalCmds (some "base")
        (allFiles none [⟨["show"], some "*"⟩, ⟨["exit"], some "oper"⟩]) ∧
    lookupTree [("datamodel:x", []), ("oper", ["exit", "show"])] "datamodel:x"
      = some [] ∧
    ("show" : String) ∉ ([] : List String) :=
  ⟨rfl, by decide, rfl, by simp⟩

/-- Witness for C1 at a concrete load: the mode `oper`, created during the
load, does accept the universal command `show` after the final pass. -/
theorem C1_witness :
    ∃ t, lookupTree
        (finalizeLoad ⟨[("oper", ["exit"])], ["show"], ["oper"]⟩) "oper"
        = some t ∧ "show" ∈ t := by
  have h := C1_universal_into_created_modes (some "base") [] none
      [⟨["show"], some "*"⟩, ⟨["exit"], some "oper"⟩]
      ⟨[("oper", ["exit"])], ["show"], ["oper"]⟩ rfl
  exact h.2.2 "oper" (by decide) "show" (by decide)

end Clixon
